import Mathlib

/-!
Verification of the remote-approval protocol of the beelal_007 agent:
the client-side permission gate (src/tools/permission_gate.py), the
approval broker endpoints (src/bridge/server.py), and the action
executor (src/tools/uitars_runner.py), shallowly embedded in Lean.

Python dictionaries with string keys are modelled as association lists
(`List (String × _)`) with insertion-order semantics; Python values that
may be absent or None are modelled by the `PyVal` type below; wall-clock
time is an `Int` number of seconds passed explicitly to every operation
that reads the clock; network and OS-device interactions are passed in
as explicit environment values (lists of outcomes), so every embedded
operation is a total function.
-/

namespace Beelal

/-- Model of a Python JSON-ish value as stored in the action dictionaries
(`None`, bools, ints, strings, lists). -/
inductive PyVal where
  | vNone : PyVal
  | vBool (b : Bool) : PyVal
  | vInt (i : Int) : PyVal
  | vStr (s : String) : PyVal
  | vList (l : List PyVal) : PyVal

mutual

/-- Decidable equality for `PyVal` (the nested list forces a manual instance). -/
def PyVal.decEq : (a b : PyVal) → Decidable (a = b)
  | .vNone, .vNone => isTrue rfl
  | .vNone, .vBool _ => isFalse (fun h => nomatch h)
  | .vNone, .vInt _ => isFalse (fun h => nomatch h)
  | .vNone, .vStr _ => isFalse (fun h => nomatch h)
  | .vNone, .vList _ => isFalse (fun h => nomatch h)
  | .vBool _, .vNone => isFalse (fun h => nomatch h)
  | .vBool a, .vBool b =>
      if h : a = b then isTrue (congrArg PyVal.vBool h)
      else isFalse (fun hc => by cases hc; exact h rfl)
  | .vBool _, .vInt _ => isFalse (fun h => nomatch h)
  | .vBool _, .vStr _ => isFalse (fun h => nomatch h)
  | .vBool _, .vList _ => isFalse (fun h => nomatch h)
  | .vInt _, .vNone => isFalse (fun h => nomatch h)
  | .vInt _, .vBool _ => isFalse (fun h => nomatch h)
  | .vInt a, .vInt b =>
      if h : a = b then isTrue (congrArg PyVal.vInt h)
      else isFalse (fun hc => by cases hc; exact h rfl)
  | .vInt _, .vStr _ => isFalse (fun h => nomatch h)
  | .vInt _, .vList _ => isFalse (fun h => nomatch h)
  | .vStr _, .vNone => isFalse (fun h => nomatch h)
  | .vStr _, .vBool _ => isFalse (fun h => nomatch h)
  | .vStr _, .vInt _ => isFalse (fun h => nomatch h)
  | .vStr a, .vStr b =>
      if h : a = b then isTrue (congrArg PyVal.vStr h)
      else isFalse (fun hc => by cases hc; exact h rfl)
  | .vStr _, .vList _ => isFalse (fun h => nomatch h)
  | .vList _, .vNone => isFalse (fun h => nomatch h)
  | .vList _, .vBool _ => isFalse (fun h => nomatch h)
  | .vList _, .vInt _ => isFalse (fun h => nomatch h)
  | .vList _, .vStr _ => isFalse (fun h => nomatch h)
  | .vList a, .vList b =>
      match PyVal.decEqList a b with
      | isTrue h => isTrue (congrArg PyVal.vList h)
      | isFalse h => isFalse (fun hc => by cases hc; exact h rfl)

/-- Decidable equality for lists of `PyVal`. -/
def PyVal.decEqList : (a b : List PyVal) → Decidable (a = b)
  | [], [] => isTrue rfl
  | [], _ :: _ => isFalse (fun h => nomatch h)
  | _ :: _, [] => isFalse (fun h => nomatch h)
  | x :: xs, y :: ys =>
      match PyVal.decEq x y with
      | isFalse h => isFalse (fun hc => by cases hc; exact h rfl)
      | isTrue h1 =>
        match PyVal.decEqList xs ys with
        | isTrue h2 => isTrue (by rw [h1, h2])
        | isFalse h2 => isFalse (fun hc => by cases hc; exact h2 rfl)

end

instance : DecidableEq PyVal := PyVal.decEq

/-- A Python dict with string keys. -/
abbrev PyDict := List (String × PyVal)

/-- First binding of key `k`, like Python dict lookup (dicts have unique
keys; the association lists we build preserve that). -/
def dictFind {α : Type} (d : List (String × α)) (k : String) : Option α :=
  match d with
  | [] => none
  | (k1, v) :: rest => if k1 = k then some v else dictFind rest k

/-- Python `d[k] = v`: replace in place when the key exists (keeping its
position, as Python dicts do), else append. -/
def dictSet {α : Type} (d : List (String × α)) (k : String) (v : α) : List (String × α) :=
  match d with
  | [] => [(k, v)]
  | (k1, v1) :: rest => if k1 = k then (k, v) :: rest else (k1, v1) :: dictSet rest k v

/-- Python `d.get(k)`: `None` when the key is absent. -/
def pyGet (d : PyDict) (k : String) : PyVal :=
  (dictFind d k).getD PyVal.vNone

/-- Python `d.get(k, default)`: the default only when the key is absent
(a stored `None` is returned as `None`). -/
def pyGetD (d : PyDict) (k : String) (dflt : PyVal) : PyVal :=
  (dictFind d k).getD dflt

/-- Python `v in list_of_strings` (`in` compares with `==`; only string
values can equal a string). -/
def pyInStrList (v : PyVal) (l : List String) : Bool :=
  l.any (fun s => v == PyVal.vStr s)

/-- Python truthiness of a value (`if region and ...`). -/
def pyTruthy : PyVal → Bool
  | .vNone => false
  | .vBool b => b
  | .vInt i => i != 0
  | .vStr s => s != ""
  | .vList l => !l.isEmpty

/-- Python `len(v)`: defined on strings and lists, a `TypeError` otherwise. -/
def pyLen : PyVal → Except String Int
  | .vStr s => .ok s.length
  | .vList l => .ok l.length
  | _ => .error "object has no len()"

/-- Python unary minus: ints (and bools, which are ints) only. -/
def pyNeg : PyVal → Except String PyVal
  | .vInt i => .ok (.vInt (-i))
  | .vBool b => .ok (.vInt (if b then -1 else 0))
  | _ => .error "bad operand type for unary -"

/-- Python `v[i]` for the values indexed by `execute_action`
(lists; string indexing yields a one-character string). -/
def pyIndex (v : PyVal) (i : Nat) : Except String PyVal :=
  match v with
  | .vList l =>
      match l.get? i with
      | some x => .ok x
      | none => .error "list index out of range"
  | .vStr s =>
      match s.toList.get? i with
      | some c => .ok (.vStr (String.mk [c]))
      | none => .error "string index out of range"
  | _ => .error "object is not subscriptable"

/-- Python `str(v)` as used in f-strings (list elements rendered without
repr quoting, which no verified property depends on). -/
def pyStrOf : PyVal → String
  | .vNone => "None"
  | .vBool b => if b then "True" else "False"
  | .vInt i => toString i
  | .vStr s => s
  | .vList l => "[" ++ String.intercalate ", " (l.map (fun v => pyStrOfShallow v)) ++ "]"
where
  /-- One non-recursive level, enough for error-message rendering. -/
  pyStrOfShallow : PyVal → String
  | .vNone => "None"
  | .vBool b => if b then "True" else "False"
  | .vInt i => toString i
  | .vStr s => s
  | .vList _ => "[...]"

/-! ## PermissionGate (src/tools/permission_gate.py)

Mutable instance state `allow_all`, `allow_all_expires`, `skip_types`
becomes `GateState`; `time.time()` becomes an explicit `now` argument;
the two network interactions of `request` (the registration POST and the
decision-poll GETs) become explicit outcome values supplied by the
environment. -/

/-- The mutable state of a `PermissionGate` instance. -/
structure GateState where
  allow_all : Bool
  allow_all_expires : Int
  skip_types : List String
deriving DecidableEq

/-- `PermissionGate.set_allow_all(minutes)`: enable auto-approve for
`minutes` minutes from `now`. -/
def set_allow_all (st : GateState) (now : Int) (minutes : Int) : GateState :=
  { st with allow_all := true, allow_all_expires := now + minutes * 60 }

/-- `PermissionGate.revoke_allow_all()`. -/
def revoke_allow_all (st : GateState) : GateState :=
  { st with allow_all := false, allow_all_expires := 0 }

/-- `PermissionGate.is_allow_all_active()`: lazy-expiry check that also
auto-revokes an expired window; returns the flag and the (possibly
revoked) state. -/
def is_allow_all_active (st : GateState) (now : Int) : Bool × GateState :=
  if st.allow_all ∧ now < st.allow_all_expires then (true, st)
  else if st.allow_all then (false, revoke_allow_all st)
  else (false, st)

/-- `PermissionGate.time_remaining()`: formatted remaining time, or the
sentinel `"inactive"`. -/
def time_remaining (st : GateState) (now : Int) : String × GateState :=
  let p := is_allow_all_active st now
  if p.1 then
    let remaining : Int := p.2.allow_all_expires - now
    (s!"{remaining / 60}m {remaining % 60}s", p.2)
  else ("inactive", p.2)

/-- `PermissionGate.add_skip_type(t)`. -/
def add_skip_type (st : GateState) (t : String) : GateState :=
  if t ∈ st.skip_types then st else { st with skip_types := st.skip_types ++ [t] }

/-- `PermissionGate.remove_skip_type(t)`. -/
def remove_skip_type (st : GateState) (t : String) : GateState :=
  { st with skip_types := st.skip_types.erase t }

/-- Outcome of the registration POST to `/permission/request`:
either an exception from the `requests` library (connection error,
timeout, ...) or a response with an HTTP status code. -/
inductive PostOutcome where
  | exn : PostOutcome
  | response (status : Nat) : PostOutcome
deriving DecidableEq

/-- Outcome of one decision-poll GET on `/permission/result/{task_id}`:
an exception, or a response with a status code and the decision string
of its JSON body. -/
inductive PollOutcome where
  | exn : PollOutcome
  | response (status : Nat) (decision : String) : PollOutcome
deriving DecidableEq

/-- The poll loop of `PermissionGate.request` (step 4): each list entry
is one GET attempt tagged with the wall-clock time at its loop-guard
check; the loop exits with `"stop"` when the 300 s budget is exhausted,
loops on exceptions, non-200 responses and `"pending"`, activates the
30-minute local window on `"allow_all"`, and returns any other decision
verbatim. Also counts the GET calls made. An exhausted list stands for
an environment that keeps answering `"pending"` (or failing) until the
guard expires, which the code resolves to `"stop"` as well. -/
def pollLoop (st : GateState) (start : Int) (polls : List (Int × PollOutcome)) :
    String × GateState × Nat :=
  match polls with
  | [] => ("stop", st, 0)
  | (t, r) :: rest =>
    if t - start < 300 then
      match r with
      | .exn =>
          let q := pollLoop st start rest
          (q.1, q.2.1, q.2.2 + 1)
      | .response status decision =>
          if status = 200 then
            if decision = "pending" then
              let q := pollLoop st start rest
              (q.1, q.2.1, q.2.2 + 1)
            else if decision = "allow_all" then ("allow", set_allow_all st t 30, 1)
            else (decision, st, 1)
          else
            let q := pollLoop st start rest
            (q.1, q.2.1, q.2.2 + 1)
    else ("stop", st, 0)

/-- Result of `PermissionGate.request`: the decision string, the updated
gate state, and how many broker calls (POST + GETs) were made. -/
structure GateResult where
  decision : String
  state : GateState
  broker_calls : Nat
deriving DecidableEq

/-- `PermissionGate.request(action)`: (1) local Allow-All window check,
(2) skip-type check, (3) registration POST — fail-closed `"stop"` on
exception or non-200 — then (4) the poll loop. `now` is the clock at
entry (the registration POST is taken as instantaneous; poll timestamps
are carried by `polls`). The payload fields sent to the broker
(description, coordinates, confidence) do not influence the gate and are
absorbed into the environment. -/
def request (st : GateState) (now : Int) (action : PyDict)
    (post : PostOutcome) (polls : List (Int × PollOutcome)) : GateResult :=
  let action_type := pyGetD action "action" (.vStr "unknown")
  let p := is_allow_all_active st now
  if p.1 then ⟨"allow", p.2, 0⟩
  else if pyInStrList action_type p.2.skip_types then ⟨"skip", p.2, 0⟩
  else
    match post with
    | .exn => ⟨"stop", p.2, 1⟩
    | .response status =>
      if status ≠ 200 then ⟨"stop", p.2, 1⟩
      else
        let q := pollLoop p.2 now polls
        ⟨q.1, q.2.1, q.2.2 + 1⟩

/-! ## ApprovalBroker — action-permission endpoints (src/bridge/server.py)

The module-global `pending_permissions` dict and the `server_allow_all`
flag/expiry become `BrokerState`; each FastAPI handler becomes a function
from request data and state to a new state and a response.  `_time.time()`
is an explicit `now` argument. -/

/-- Body of `POST /permission/request` (the pydantic `PermissionRequest`
model; pydantic enforces the field types). -/
structure PermissionRequest where
  task_id : String
  action_type : String
  description : String
  x : Option Int
  y : Option Int
  text : Option String
  confidence : Rat
deriving DecidableEq

/-- Body of `POST /permission/result` (the pydantic `PermissionDecision`
model). -/
structure PermissionDecision where
  task_id : String
  decision : String
  edit_data : Option String
deriving DecidableEq

/-- One entry of the `pending_permissions` map: the registration data
(`**data.model_dump()`) plus the `decision`, optional `edit_data`, and
`created_at` keys. `decision = none` is the stored Python `None`;
the `edit_data` key is present only when set. -/
structure PermEntry where
  req : PermissionRequest
  decision : Option String
  edit_data : Option String
  created_at : Int
deriving DecidableEq

/-- Broker-side global state: the in-memory `pending_permissions` dict
(insertion-ordered) and the server-level Allow-All window. -/
structure BrokerState where
  perms : List (String × PermEntry)
  allow_all : Bool
  allow_all_expires : Int
deriving DecidableEq

/-- Response of `POST /permission/request`. -/
structure ReqResponse where
  status : String
  task_id : String
deriving DecidableEq

/-- `POST /permission/request`: when the server Allow-All window is
active at registration time the entry is stored already decided
`"allow"` and the response status is `"auto_allowed"`; otherwise the
entry is stored undecided and the status is `"queued"`. -/
def permission_request (now : Int) (data : PermissionRequest) (st : BrokerState) :
    BrokerState × ReqResponse :=
  if st.allow_all ∧ now < st.allow_all_expires then
    ({ st with perms := dictSet st.perms data.task_id ⟨data, some "allow", none, now⟩ },
     ⟨"auto_allowed", data.task_id⟩)
  else
    ({ st with perms := dictSet st.perms data.task_id ⟨data, none, none, now⟩ },
     ⟨"queued", data.task_id⟩)

/-- One element of the `GET /permission/pending` response. -/
structure PendingItem where
  task_id : String
  action_type : String
  description : String
  x : Option Int
  y : Option Int
  text : Option String
  confidence : Rat
  created_at : Int
deriving DecidableEq

/-- `GET /permission/pending`: exactly the undecided entries, in map
(insertion) order, projected to their display fields. -/
def permission_pending (st : BrokerState) : List PendingItem :=
  (st.perms.filter (fun p => p.2.decision = none)).map
    (fun p => ⟨p.1, p.2.req.action_type, p.2.req.description, p.2.req.x, p.2.req.y,
               p.2.req.text, p.2.req.confidence, p.2.created_at⟩)

/-- The task ids currently listed as pending. -/
def pendingIds (st : BrokerState) : List String :=
  (permission_pending st).map (fun item => item.task_id)

/-- Response of `POST /permission/result`. -/
structure SetResponse where
  status : String
  task_id : String
  decision : String
deriving DecidableEq

/-- `POST /permission/result`: unknown `task_id` raises
`HTTPException(404)` (modelled as the `Except` error carrying the status
code); otherwise the decision (and truthy `edit_data`) is stored, and a
decision of `"allow_all"` additionally activates the server Allow-All
window for 30 minutes. -/
def permission_result_set (now : Int) (data : PermissionDecision) (st : BrokerState) :
    Except Nat (BrokerState × SetResponse) :=
  match dictFind st.perms data.task_id with
  | none => .error 404
  | some e =>
    let e1 : PermEntry := { e with decision := some data.decision }
    let e2 : PermEntry :=
      match data.edit_data with
      | some s => if s != "" then { e1 with edit_data := some s } else e1
      | none => e1
    let st1 : BrokerState := { st with perms := dictSet st.perms data.task_id e2 }
    let st2 : BrokerState :=
      if data.decision = "allow_all" then
        { st1 with allow_all := true, allow_all_expires := now + 30 * 60 }
      else st1
    .ok (st2, ⟨"received", data.task_id, data.decision⟩)

/-- `POST /permission/result` as observed at the HTTP boundary: FastAPI
converts the raised `HTTPException` into a 404 response (the state is
untouched, since the raise precedes any mutation), so the caller always
receives a status code, never an exception. -/
def permission_result_set_http (now : Int) (data : PermissionDecision) (st : BrokerState) :
    Nat × BrokerState :=
  match permission_result_set now data st with
  | .error code => (code, st)
  | .ok (st1, _) => (200, st1)

/-- Response of `GET /permission/result/{task_id}`. -/
structure GetResponse where
  decision : String
  edit_data : Option String
deriving DecidableEq

/-- `GET /permission/result/{task_id}`: `"not_found"` for an unknown id,
`"pending"` for an undecided entry, else the stored decision (with
`edit_data` when present). -/
def permission_result_get (task_id : String) (st : BrokerState) : GetResponse :=
  match dictFind st.perms task_id with
  | none => ⟨"not_found", none⟩
  | some e =>
    match e.decision with
    | none => ⟨"pending", none⟩
    | some d => ⟨d, e.edit_data⟩

/-- `POST /permission/set_allow_all`. -/
def permission_set_allow_all (now : Int) (duration_minutes : Int) (st : BrokerState) :
    BrokerState × Int :=
  let st1 : BrokerState :=
    { st with allow_all := true, allow_all_expires := now + duration_minutes * 60 }
  (st1, st1.allow_all_expires)

/-- One broker operation, for reasoning about operation sequences. -/
inductive BrokerOp where
  | register (now : Int) (data : PermissionRequest) : BrokerOp
  | decide (now : Int) (data : PermissionDecision) : BrokerOp
  | setAllowAll (now : Int) (minutes : Int) : BrokerOp
deriving DecidableEq

/-- State transition of one broker operation (a rejected decision — 404 —
leaves the state unchanged). -/
def brokerStep (st : BrokerState) (op : BrokerOp) : BrokerState :=
  match op with
  | .register now data => (permission_request now data st).1
  | .decide now data =>
    match permission_result_set now data st with
    | .error _ => st
    | .ok (st1, _) => st1
  | .setAllowAll now m => (permission_set_allow_all now m st).1

/-- Run a sequence of broker operations. -/
def brokerRun (st : BrokerState) (ops : List BrokerOp) : BrokerState :=
  ops.foldl brokerStep st

/-- `op` registers task id `tid`. -/
def isRegisterOf (tid : String) : BrokerOp → Bool
  | .register _ data => data.task_id == tid
  | _ => false

/-- Task id `tid` holds a decided entry in `st`. -/
def decidedIn (tid : String) (st : BrokerState) : Bool :=
  match dictFind st.perms tid with
  | some e => e.decision.isSome
  | none => false

/-! ## ActionExecutor — execute_action (src/tools/uitars_runner.py)

Every interaction with the OS input/capture layer (`pyautogui.moveTo`,
`click`, `write`, `scroll`, `mss` grabs) is one "device call"; the
environment supplies the outcome of each call in order: success (with a
returned string, used as the saved path by the capture calls), a
`pyautogui.FailSafeException` (pointer at the reserved corner), or any
other exception with its message.  Successful calls are recorded as
input events, so "zero input events" is observable in the model. -/

/-- Outcome of one OS device call, supplied by the environment. -/
inductive DevOutcome where
  | ok (ret : String) : DevOutcome
  | failSafe : DevOutcome
  | err (msg : String) : DevOutcome
deriving DecidableEq

/-- An OS-level input/capture event actually performed. -/
inductive InputEvent where
  | moveTo (x y : PyVal) : InputEvent
  | clickAt (x y : PyVal) : InputEvent
  | write (text : PyVal) : InputEvent
  | scrollBy (amount : PyVal) (x y : PyVal) : InputEvent
  | grabRegion (args : List PyVal) : InputEvent
  | grabScreen : InputEvent
deriving DecidableEq

/-- Consume the next device outcome (an exhausted environment keeps
succeeding). -/
def devCall : List DevOutcome → DevOutcome × List DevOutcome
  | [] => (.ok "", [])
  | o :: rest => (o, rest)

/-- How the body of `execute_action` leaves the `try` block: a normal
return value, an ordinary exception, or a `FailSafeException`. -/
inductive ExecOutcome where
  | ret (result : List (String × PyVal)) : ExecOutcome
  | raised (msg : String) : ExecOutcome
  | fsAbort : ExecOutcome
deriving DecidableEq

/-- Perform one input device call: on success record the event, on an
exception abort the body with the matching outcome (the event of a
failed call is not recorded — the exception interrupts it). -/
def runDev (env : List DevOutcome) (evs : List InputEvent) (ev : InputEvent) :
    Except (ExecOutcome × List InputEvent) (List DevOutcome × List InputEvent) :=
  match devCall env with
  | (.failSafe, _) => .error (.fsAbort, evs)
  | (.err m, _) => .error (.raised m, evs)
  | (.ok _, env1) => .ok (env1, evs ++ [ev])

/-- Perform one capture call; its returned string is the saved path. -/
def runCapture (env : List DevOutcome) (evs : List InputEvent) (ev : InputEvent) :
    Except (ExecOutcome × List InputEvent) (String × List DevOutcome × List InputEvent) :=
  match devCall env with
  | (.failSafe, _) => .error (.fsAbort, evs)
  | (.err m, _) => .error (.raised m, evs)
  | (.ok ret, env1) => .ok (ret, env1, evs ++ [ev])

/-- `SCREENSHOT_PATH` of uitars_runner.py (full-screen capture target). -/
def SCREENSHOT_PATH : String := "memory/screenshots/screen_current.png"

/-- The `try` block of `execute_action`: field extraction, dispatch on
the action type, validation, device calls, and the per-action result
dictionaries, transcribed branch by branch. -/
def execBody (env : List DevOutcome) (action : PyDict) : ExecOutcome × List InputEvent :=
  let action_type := pyGetD action "action" (.vStr "ask")
  let x := pyGet action "x"
  let y := pyGet action "y"
  let text := pyGet action "text"
  let direction := pyGetD action "direction" (.vStr "down")
  let amount := pyGetD action "amount" (.vInt 3)
  let region := pyGet action "region"
  let description := pyGetD action "description" (.vStr "")
  if action_type = PyVal.vStr "click" then
    if x = PyVal.vNone ∨ y = PyVal.vNone then
      (.ret [("success", .vBool false),
             ("error", .vStr "Click action requires x and y coordinates")], [])
    else
      match runDev env [] (.moveTo x y) with
      | .error r => r
      | .ok (env1, evs1) =>
        match runDev env1 evs1 (.clickAt x y) with
        | .error r => r
        | .ok (_, evs2) =>
          (.ret [("success", .vBool true), ("action", .vStr "click"),
                 ("x", x), ("y", y), ("description", description)], evs2)
  else if action_type = PyVal.vStr "type" then
    if text = PyVal.vNone then
      (.ret [("success", .vBool false), ("error", .vStr "Type action requires text")], [])
    else
      let focus : Except (ExecOutcome × List InputEvent) (List DevOutcome × List InputEvent) :=
        if x ≠ PyVal.vNone ∧ y ≠ PyVal.vNone then runDev env [] (.clickAt x y)
        else .ok (env, [])
      match focus with
      | .error r => r
      | .ok (env1, evs1) =>
        match runDev env1 evs1 (.write text) with
        | .error r => r
        | .ok (_, evs2) =>
          match pyLen text with
          | .error m => (.raised m, evs2)
          | .ok n =>
            (.ret [("success", .vBool true), ("action", .vStr "type"),
                   ("chars_typed", .vInt n), ("description", description)], evs2)
  else if action_type = PyVal.vStr "scroll" then
    let sa : Except String PyVal :=
      if direction = PyVal.vStr "up" then .ok amount else pyNeg amount
    match sa with
    | .error m => (.raised m, [])
    | .ok scroll_amount =>
      match runDev env [] (.scrollBy scroll_amount x y) with
      | .error r => r
      | .ok (_, evs1) =>
        (.ret [("success", .vBool true), ("action", .vStr "scroll"),
               ("direction", direction), ("amount", amount),
               ("description", description)], evs1)
  else if action_type = PyVal.vStr "extract" then
    let fullgrab : ExecOutcome × List InputEvent :=
      match runCapture env [] InputEvent.grabScreen with
      | .error r => r
      | .ok (_, _, evs1) =>
        (.ret [("success", .vBool true), ("action", .vStr "extract"),
               ("saved_path", .vStr SCREENSHOT_PATH), ("description", description)], evs1)
    if pyTruthy region then
      match pyLen region with
      | .error m => (.raised m, [])
      | .ok n =>
        if n = 4 then
          match (do
            let a0 ← pyIndex region 0
            let a1 ← pyIndex region 1
            let a2 ← pyIndex region 2
            let a3 ← pyIndex region 3
            pure (a0, a1, a2, a3) : Except String (PyVal × PyVal × PyVal × PyVal)) with
          | .error m => (.raised m, [])
          | .ok (a0, a1, a2, a3) =>
            match runCapture env [] (.grabRegion [a0, a1, a2, a3]) with
            | .error r => r
            | .ok (path, _, evs1) =>
              (.ret [("success", .vBool true), ("action", .vStr "extract"),
                     ("saved_path", .vStr path), ("description", description)], evs1)
        else fullgrab
    else fullgrab
  else if action_type = PyVal.vStr "done" then
    (.ret [("success", .vBool true), ("action", .vStr "done"),
           ("message", .vStr "Task complete"), ("description", description)], [])
  else if action_type = PyVal.vStr "ask" then
    (.ret [("success", .vBool true), ("action", .vStr "ask"),
           ("question", description)], [])
  else
    (.ret [("success", .vBool false),
           ("error", .vStr ("Unknown action type: " ++ pyStrOf action_type))], [])

/-- The fixed error value of the `FailSafeException` handler. -/
def failSafeMsg : String := "FAILSAFE: Mouse moved to top-left corner. All actions aborted."

/-- `execute_action(action)`: the `try` body wrapped by the two `except`
handlers — `FailSafeException` yields the fixed fail-safe result, any
other exception yields `success: False` with `str(e)` as the error.
Returns the result dictionary and the input events performed. -/
def execute_action (env : List DevOutcome) (action : PyDict) :
    List (String × PyVal) × List InputEvent :=
  match execBody env action with
  | (.ret r, evs) => (r, evs)
  | (.fsAbort, evs) => ([("success", .vBool false), ("error", .vStr failSafeMsg)], evs)
  | (.raised m, evs) => ([("success", .vBool false), ("error", .vStr m)], evs)

/-! ## Predicates used by the verified properties -/

/-- A poll outcome the loop skips over: an exception, a non-200 response,
or a 200 response whose decision is `"pending"`. -/
def pollPendingish : PollOutcome → Bool
  | .exn => true
  | .response s d => s != 200 || d == "pending"

/-- A poll outcome whose decision (when delivered with status 200) lies in
the broker vocabulary for an existing request. -/
def pollVocabOk : PollOutcome → Bool
  | .exn => true
  | .response s d =>
      s != 200 || (d == "pending" || d == "allow" || d == "skip" || d == "stop" ||
                   d == "edit" || d == "allow_all")

/-- A result dictionary of `execute_action` is well formed when it holds
a boolean `"success"` key, and, when that is `False`, a string
`"error"` key. -/
def resultWellFormed (r : List (String × PyVal)) : Bool :=
  match dictFind r "success" with
  | some (.vBool true) => true
  | some (.vBool false) =>
    match dictFind r "error" with
    | some (.vStr _) => true
    | _ => false
  | _ => false

/-- Well-formedness of a `try`-body outcome: a returned dictionary must
be well formed; exceptional exits are handled by the wrapper. -/
def outcomeWF : ExecOutcome × List InputEvent → Bool
  | (.ret r, _) => resultWellFormed r
  | (.raised _, _) => true
  | (.fsAbort, _) => true

/-! ## Helper lemmas -/

theorem is_allow_all_active_skip_types (st : GateState) (now : Int) :
    ((is_allow_all_active st now).2).skip_types = st.skip_types := by
  unfold is_allow_all_active revoke_allow_all
  split
  · rfl
  · split <;> rfl

theorem is_allow_all_active_of_window (st : GateState) (now : Int)
    (h1 : st.allow_all = true) (h2 : now < st.allow_all_expires) :
    is_allow_all_active st now = (true, st) := by
  unfold is_allow_all_active
  rw [if_pos ⟨h1, h2⟩]

theorem request_allow_of_active (st : GateState) (now : Int) (action : PyDict)
    (post : PostOutcome) (polls : List (Int × PollOutcome))
    (h1 : st.allow_all = true) (h2 : now < st.allow_all_expires) :
    request st now action post polls = ⟨"allow", st, 0⟩ := by
  unfold request
  rw [is_allow_all_active_of_window st now h1 h2]
  rfl

theorem pollLoop_stop_of_pendingish (polls : List (Int × PollOutcome))
    (st : GateState) (start : Int)
    (h : ∀ p ∈ polls, p.1 - start < 300 → pollPendingish p.2 = true) :
    (pollLoop st start polls).1 = "stop" := by
  induction polls with
  | nil => rfl
  | cons p rest ih =>
    obtain ⟨t, r⟩ := p
    by_cases hg : t - start < 300
    · have hp := h (t, r) (List.mem_cons_self _ _) hg
      have hrest : ∀ q ∈ rest, q.1 - start < 300 → pollPendingish q.2 = true :=
        fun q hq => h q (List.mem_cons_of_mem _ hq)
      cases r with
      | exn => simpa [pollLoop, hg] using ih hrest
      | response s d =>
        simp only [pollPendingish, Bool.or_eq_true, bne_iff_ne, beq_iff_eq] at hp
        rcases hp with hs | hd
        · simp [pollLoop, hg, hs, ih hrest]
        · by_cases hs200 : s = 200
          · simp [pollLoop, hg, hs200, hd, ih hrest]
          · simp [pollLoop, hg, hs200, ih hrest]
    · cases r <;> simp [pollLoop, hg]

theorem pollLoop_vocab (polls : List (Int × PollOutcome)) (st : GateState) (start : Int)
    (h : ∀ p ∈ polls, pollVocabOk p.2 = true) :
    (pollLoop st start polls).1 ∈ (["allow", "skip", "stop", "edit"] : List String) := by
  induction polls with
  | nil => simp [pollLoop]
  | cons p rest ih =>
    obtain ⟨t, r⟩ := p
    have hrest : ∀ q ∈ rest, pollVocabOk q.2 = true :=
      fun q hq => h q (List.mem_cons_of_mem _ hq)
    by_cases hg : t - start < 300
    · cases r with
      | exn => simpa [pollLoop, hg] using ih hrest
      | response s d =>
        have hp := h (t, .response s d) (List.mem_cons_self _ _)
        simp only [pollVocabOk, Bool.or_eq_true, bne_iff_ne, beq_iff_eq] at hp
        by_cases hs200 : s = 200
        · rcases hp with hs | hd
          · exact absurd hs200 hs
          · by_cases hpend : d = "pending"
            · simpa [pollLoop, hg, hs200, hpend] using ih hrest
            · by_cases hall : d = "allow_all"
              · simp [pollLoop, hg, hs200, hpend, hall]
              · rcases hd with ((((hd | hd) | hd) | hd) | hd) | hd
                · exact absurd hd hpend
                all_goals subst hd; simp [pollLoop, hg, hs200, hpend, hall]
        · simpa [pollLoop, hg, hs200] using ih hrest
    · cases r <;> simp [pollLoop, hg]

theorem request_poll_characterization (st : GateState) (now : Int) (action : PyDict)
    (polls : List (Int × PollOutcome))
    (ha : (is_allow_all_active st now).1 = false)
    (hs : pyInStrList (pyGetD action "action" (.vStr "unknown")) st.skip_types = false) :
    request st now action (.response 200) polls =
      ⟨(pollLoop (is_allow_all_active st now).2 now polls).1,
       (pollLoop (is_allow_all_active st now).2 now polls).2.1,
       (pollLoop (is_allow_all_active st now).2 now polls).2.2 + 1⟩ := by
  unfold request
  simp [ha, is_allow_all_active_skip_types, hs]

theorem pollLoop_append_pendingish (pre : List (Int × PollOutcome))
    (st : GateState) (start : Int) (rest : List (Int × PollOutcome))
    (h : ∀ p ∈ pre, p.1 - start < 300 ∧ pollPendingish p.2 = true) :
    (pollLoop st start (pre ++ rest)).1 = (pollLoop st start rest).1 ∧
    (pollLoop st start (pre ++ rest)).2.1 = (pollLoop st start rest).2.1 := by
  induction pre with
  | nil => simp
  | cons p pre1 ih =>
    obtain ⟨t, r⟩ := p
    obtain ⟨hg, hp⟩ := h (t, r) (List.mem_cons_self _ _)
    have hrest : ∀ q ∈ pre1, q.1 - start < 300 ∧ pollPendingish q.2 = true :=
      fun q hq => h q (List.mem_cons_of_mem _ hq)
    cases r with
    | exn => simpa [pollLoop, hg] using ih hrest
    | response s d =>
      simp only [pollPendingish, Bool.or_eq_true, bne_iff_ne, beq_iff_eq] at hp
      rcases hp with hs | hd
      · simpa [pollLoop, hg, hs] using ih hrest
      · by_cases hs200 : s = 200
        · simpa [pollLoop, hg, hs200, hd] using ih hrest
        · simpa [pollLoop, hg, hs200] using ih hrest

/-! ## Claim theorems -/

/-- C1 (amended): `PermissionGate.request` is a total function (it never
raises across its public boundary — in the embedding every path returns
a decision string) and fails closed: (i) when the gate reaches the
registration step (no local short-circuit) and the POST raises a
transport exception, it returns `"stop"`; (ii) likewise when the POST
returns a non-200 status; (iii) when every poll examined within the
300-second budget is an exception, a non-200 response, or `"pending"`,
it returns `"stop"`; and (iv) whenever the broker delivers only
decisions from its vocabulary for an existing request
(`pending`/`allow`/`skip`/`stop`/`edit`/`allow_all`), the returned
value is one of the defined decision values `allow`, `skip`, `stop`,
`edit` — a decision string outside that vocabulary is returned
verbatim, as the counterexample shows. -/
theorem request_fail_closed_total :
    (∀ (st : GateState) (now : Int) (action : PyDict) (polls : List (Int × PollOutcome)),
      (is_allow_all_active st now).1 = false →
      pyInStrList (pyGetD action "action" (.vStr "unknown")) st.skip_types = false →
      (request st now action .exn polls).decision = "stop")
    ∧ (∀ (st : GateState) (now : Int) (action : PyDict) (s : Nat)
        (polls : List (Int × PollOutcome)),
      (is_allow_all_active st now).1 = false →
      pyInStrList (pyGetD action "action" (.vStr "unknown")) st.skip_types = false →
      s ≠ 200 →
      (request st now action (.response s) polls).decision = "stop")
    ∧ (∀ (st : GateState) (now : Int) (action : PyDict) (s : Nat)
        (polls : List (Int × PollOutcome)),
      (is_allow_all_active st now).1 = false →
      pyInStrList (pyGetD action "action" (.vStr "unknown")) st.skip_types = false →
      (∀ p ∈ polls, p.1 - now < 300 → pollPendingish p.2 = true) →
      (request st now action (.response s) polls).decision = "stop")
    ∧ (∀ (st : GateState) (now : Int) (action : PyDict) (post : PostOutcome)
        (polls : List (Int × PollOutcome)),
      (∀ p ∈ polls, pollVocabOk p.2 = true) →
      (request st now action post polls).decision ∈
        (["allow", "skip", "stop", "edit"] : List String)) := by
  refine ⟨?_, ?_, ?_, ?_⟩
  · intro st now action polls ha hs
    unfold request
    simp [ha, is_allow_all_active_skip_types, hs]
  · intro st now action s polls ha hs hns
    unfold request
    simp [ha, is_allow_all_active_skip_types, hs, hns]
  · intro st now action s polls ha hs hp
    by_cases hs200 : s = 200
    · subst hs200
      rw [request_poll_characterization st now action polls ha hs]
      exact pollLoop_stop_of_pendingish polls _ now hp
    · unfold request
      simp [ha, is_allow_all_active_skip_types, hs, hs200]
  · intro st now action post polls hv
    by_cases ha : (is_allow_all_active st now).1 = true
    · unfold request
      simp [ha]
    · rw [Bool.not_eq_true] at ha
      by_cases hs : pyInStrList (pyGetD action "action" (.vStr "unknown"))
          st.skip_types = true
      · unfold request
        simp [ha, is_allow_all_active_skip_types, hs]
      · rw [Bool.not_eq_true] at hs
        cases post with
        | exn =>
          unfold request
          simp [ha, is_allow_all_active_skip_types, hs]
        | response s =>
          by_cases hs200 : s = 200
          · subst hs200
            rw [request_poll_characterization st now action polls ha hs]
            exact pollLoop_vocab polls _ now hv
          · unfold request
            simp [ha, is_allow_all_active_skip_types, hs, hs200]

/-- C1 counterexample: the gate returns a polled decision string
verbatim, so a 200-status poll carrying `"not_found"` (which the wire
contract itself lists as a possible poll response, e.g. after a broker
restart clears the in-memory map) makes `request` return `"not_found"`,
which is not one of the defined decision values. -/
theorem request_verbatim_escape :
    (request ⟨false, 0, []⟩ 0 [("action", .vStr "click")] (.response 200)
      [(1, .response 200 "not_found")]).decision = "not_found"
    ∧ (request ⟨false, 0, []⟩ 0 [("action", .vStr "click")] (.response 200)
      [(1, .response 200 "not_found")]).decision ∉
        (["allow", "skip", "stop", "edit"] : List String) := by
  constructor
  · decide
  · decide

/-- C1 witness: the fail-closed and totality facts instantiated at
concrete inputs (inactive window, empty skip list, a `click` proposal;
a connection failure, a 503 response, an all-pending poll trace, and a
vocabulary-respecting trace ending in `edit`). -/
theorem request_fail_closed_total_witness :
    (request ⟨false, 0, []⟩ 0 [("action", .vStr "click")] .exn []).decision = "stop"
    ∧ (request ⟨false, 0, []⟩ 0 [("action", .vStr "click")] (.response 503) []).decision = "stop"
    ∧ (request ⟨false, 0, []⟩ 0 [("action", .vStr "click")] (.response 200)
        [(1, .response 200 "pending"), (300, .response 200 "allow")]).decision = "stop"
    ∧ (request ⟨false, 0, []⟩ 0 [("action", .vStr "click")] (.response 200)
        [(1, .response 200 "pending"), (2, .response 200 "edit")]).decision ∈
        (["allow", "skip", "stop", "edit"] : List String) :=
  ⟨request_fail_closed_total.1 ⟨false, 0, []⟩ 0 [("action", .vStr "click")] []
      (by decide) (by decide),
   request_fail_closed_total.2.1 ⟨false, 0, []⟩ 0 [("action", .vStr "click")] 503 []
      (by decide) (by decide) (by decide),
   request_fail_closed_total.2.2.1 ⟨false, 0, []⟩ 0 [("action", .vStr "click")] 200
      [(1, .response 200 "pending"), (300, .response 200 "allow")]
      (by decide) (by decide) (by decide),
   request_fail_closed_total.2.2.2 ⟨false, 0, []⟩ 0 [("action", .vStr "click")] (.response 200)
      [(1, .response 200 "pending"), (2, .response 200 "edit")] (by decide)⟩

/-- C2 counterexample: with the local Allow-All window active
(`allow_all = true`, expiry in the future) and `"scroll"` in the skip
list, a `"scroll"` proposal is answered `"allow"`, not `"skip"` — the
window check precedes the skip-type check in `request`. -/
theorem request_skip_not_unconditional :
    (request ⟨true, 100, ["scroll"]⟩ 0 [("action", .vStr "scroll")] .exn []).decision = "allow"
    ∧ (request ⟨true, 100, ["scroll"]⟩ 0 [("action", .vStr "scroll")] .exn []).decision
        ≠ "skip" := by
  constructor
  · decide
  · decide

/-- C2 (amended): for a proposal whose action type is in the skip list,
`request` returns `"skip"` immediately with zero broker calls, provided
the local Allow-All window is not active at call time (the window check
runs first; when the window is active `request` returns `"allow"`
instead). -/
theorem request_skip_of_skip_type (st : GateState) (now : Int) (action : PyDict)
    (post : PostOutcome) (polls : List (Int × PollOutcome))
    (ha : (is_allow_all_active st now).1 = false)
    (hs : pyInStrList (pyGetD action "action" (.vStr "unknown")) st.skip_types = true) :
    (request st now action post polls).decision = "skip"
    ∧ (request st now action post polls).broker_calls = 0 := by
  have h : request st now action post polls = ⟨"skip", (is_allow_all_active st now).2, 0⟩ := by
    unfold request
    simp [ha, is_allow_all_active_skip_types, hs]
  exact ⟨by rw [h], by rw [h]⟩

/-- C2 witness: inactive window, `"scroll"` in the skip list, a
`"scroll"` proposal: `"skip"` with zero broker calls. -/
theorem request_skip_of_skip_type_witness :
    (request ⟨false, 0, ["scroll"]⟩ 0 [("action", .vStr "scroll")] .exn []).decision = "skip"
    ∧ (request ⟨false, 0, ["scroll"]⟩ 0 [("action", .vStr "scroll")] .exn []).broker_calls
        = 0 :=
  request_skip_of_skip_type ⟨false, 0, ["scroll"]⟩ 0 [("action", .vStr "scroll")] .exn []
    (by decide) (by decide)

/-- C3: when the gate registers a request and, after any pending-ish
prefix, a poll inside the 300 s budget delivers `"allow_all"` at time
`t`, `request` returns `"allow"` for this request and activates the
local window for the default 30 minutes (expiry `t + 1800`); and any
request made afterwards while that window is unexpired returns
`"allow"` with zero broker calls. -/
theorem request_allow_all_activates_window (st : GateState) (now t : Int)
    (action : PyDict) (pre rest : List (Int × PollOutcome))
    (ha : (is_allow_all_active st now).1 = false)
    (hs : pyInStrList (pyGetD action "action" (.vStr "unknown")) st.skip_types = false)
    (hpre : ∀ p ∈ pre, p.1 - now < 300 ∧ pollPendingish p.2 = true)
    (ht : t - now < 300) :
    let r := request st now action (.response 200)
      (pre ++ (t, .response 200 "allow_all") :: rest)
    r.decision = "allow"
    ∧ r.state.allow_all = true
    ∧ r.state.allow_all_expires = t + 30 * 60
    ∧ (∀ (now2 : Int) (action2 : PyDict) (post2 : PostOutcome)
        (polls2 : List (Int × PollOutcome)), now2 < t + 30 * 60 →
        request r.state now2 action2 post2 polls2 = ⟨"allow", r.state, 0⟩) := by
  intro r
  have happ := pollLoop_append_pendingish pre (is_allow_all_active st now).2 now
    ((t, .response 200 "allow_all") :: rest) hpre
  have htail : (pollLoop (is_allow_all_active st now).2 now
      ((t, .response 200 "allow_all") :: rest)).1 = "allow"
      ∧ (pollLoop (is_allow_all_active st now).2 now
      ((t, .response 200 "allow_all") :: rest)).2.1 =
        set_allow_all (is_allow_all_active st now).2 t 30 := by
    constructor <;> simp [pollLoop, ht]
  have hreq := request_poll_characterization st now action
    (pre ++ (t, .response 200 "allow_all") :: rest) ha hs
  have hd : r.decision = "allow" := by
    show (request st now action (.response 200)
      (pre ++ (t, .response 200 "allow_all") :: rest)).decision = "allow"
    rw [hreq]
    exact happ.1.trans htail.1
  have hstate : r.state = set_allow_all (is_allow_all_active st now).2 t 30 := by
    show (request st now action (.response 200)
      (pre ++ (t, .response 200 "allow_all") :: rest)).state = _
    rw [hreq]
    exact happ.2.trans htail.2
  refine ⟨hd, by rw [hstate]; rfl, by rw [hstate]; rfl, ?_⟩
  intro now2 action2 post2 polls2 h2
  rw [hstate]
  exact request_allow_of_active _ now2 action2 post2 polls2 rfl h2

/-- C3 witness: inactive window, empty skip list, one pending poll, then
`"allow_all"` delivered at `t = 1`: the triggering request returns
`"allow"`, the window is active until `1 + 1800`, and a second request
at `t = 2` returns `"allow"` with zero broker calls. -/
theorem request_allow_all_activates_window_witness :
    let r := request ⟨false, 0, []⟩ 0 [("action", .vStr "click")] (.response 200)
      ([(0, .response 200 "pending")] ++ (1, .response 200 "allow_all") :: [])
    r.decision = "allow"
    ∧ r.state.allow_all = true
    ∧ r.state.allow_all_expires = 1 + 30 * 60
    ∧ (∀ (now2 : Int) (action2 : PyDict) (post2 : PostOutcome)
        (polls2 : List (Int × PollOutcome)), now2 < 1 + 30 * 60 →
        request r.state now2 action2 post2 polls2 = ⟨"allow", r.state, 0⟩) :=
  request_allow_all_activates_window ⟨false, 0, []⟩ 0 1 [("action", .vStr "click")]
    [(0, .response 200 "pending")] [] (by decide) (by decide) (by decide) (by decide)

/-- C7: the Allow-All window obeys lazy expiry at every read:
(i) right after `set_allow_all(n)` with `n > 0`, `is_allow_all_active`
is true; (ii) whenever the stored flag is true but the expiry is not in
the future, `is_allow_all_active` reads false and auto-revokes (flag
cleared, expiry zeroed); (iii) whenever the window is not active,
`time_remaining` reads the sentinel `"inactive"`. -/
theorem allow_all_window_lazy_expiry :
    (∀ (st : GateState) (now n : Int), 0 < n →
      (is_allow_all_active (set_allow_all st now n) now).1 = true)
    ∧ (∀ (st : GateState) (now : Int), st.allow_all = true →
      st.allow_all_expires ≤ now →
      is_allow_all_active st now = (false, ⟨false, 0, st.skip_types⟩))
    ∧ (∀ (st : GateState) (now : Int), (is_allow_all_active st now).1 = false →
      (time_remaining st now).1 = "inactive") := by
  refine ⟨?_, ?_, ?_⟩
  · intro st now n hn
    unfold is_allow_all_active set_allow_all
    rw [if_pos]
    refine ⟨rfl, ?_⟩
    show now < now + n * 60
    omega
  · intro st now hflag hexp
    unfold is_allow_all_active
    rw [if_neg, if_pos hflag]
    · rfl
    · rintro ⟨-, hlt⟩
      omega
  · intro st now h
    unfold time_remaining
    simp [h]

/-- C7 witness: a window set for 1 minute at time 0 is active at time 0;
a stale flag with expiry 100 read at time 100 reads inactive and is
revoked; and `time_remaining` of the never-activated gate reads
`"inactive"`. -/
theorem allow_all_window_lazy_expiry_witness :
    (is_allow_all_active (set_allow_all ⟨false, 0, []⟩ 0 1) 0).1 = true
    ∧ is_allow_all_active ⟨true, 100, ["scroll"]⟩ 100 = (false, ⟨false, 0, ["scroll"]⟩)
    ∧ (time_remaining ⟨false, 0, []⟩ 5).1 = "inactive" :=
  ⟨allow_all_window_lazy_expiry.1 ⟨false, 0, []⟩ 0 1 (by decide),
   allow_all_window_lazy_expiry.2.1 ⟨true, 100, ["scroll"]⟩ 100 (by decide) (by decide),
   allow_all_window_lazy_expiry.2.2 ⟨false, 0, []⟩ 5 (by decide)⟩

/-! ### Association-list lemmas for the broker map -/

theorem dictFind_dictSet_self {α : Type} (d : List (String × α)) (k : String) (v : α) :
    dictFind (dictSet d k v) k = some v := by
  induction d with
  | nil => simp [dictSet, dictFind]
  | cons p rest ih =>
    obtain ⟨k1, v1⟩ := p
    by_cases h : k1 = k
    · simp [dictSet, h, dictFind]
    · simp [dictSet, h, dictFind, ih]

theorem dictFind_dictSet_ne {α : Type} (d : List (String × α)) (k k1 : String) (v : α)
    (h : k1 ≠ k) : dictFind (dictSet d k v) k1 = dictFind d k1 := by
  induction d with
  | nil => simp [dictSet, dictFind, Ne.symm h]
  | cons p rest ih =>
    obtain ⟨k2, v2⟩ := p
    by_cases h2 : k2 = k
    · subst h2
      simp [dictSet, dictFind, Ne.symm h]
    · by_cases h3 : k2 = k1
      · subst h3
        simp [dictSet, h2, dictFind]
      · simp [dictSet, h2, dictFind, h3, ih]

theorem mem_keys_dictSet {α : Type} (d : List (String × α)) (k a : String) (v : α)
    (h : a ∈ (dictSet d k v).map Prod.fst) : a ∈ d.map Prod.fst ∨ a = k := by
  induction d with
  | nil => simpa [dictSet] using h
  | cons p rest ih =>
    obtain ⟨k1, v1⟩ := p
    by_cases h1 : k1 = k
    · subst h1
      rcases (by simpa [dictSet] using h : a = k1 ∨ a ∈ rest.map Prod.fst) with h2 | h2
      · exact Or.inr h2
      · exact Or.inl (by simp [h2])
    · rcases (by simpa [dictSet, h1] using h : a = k1 ∨ a ∈ (dictSet rest k v).map Prod.fst)
          with h2 | h2
      · exact Or.inl (by simp [h2])
      · rcases ih h2 with h3 | h3
        · exact Or.inl (by simp [h3])
        · exact Or.inr h3

theorem nodup_keys_dictSet {α : Type} (d : List (String × α)) (k : String) (v : α)
    (h : (d.map Prod.fst).Nodup) : ((dictSet d k v).map Prod.fst).Nodup := by
  induction d with
  | nil => simp [dictSet]
  | cons p rest ih =>
    obtain ⟨k1, v1⟩ := p
    simp only [List.map_cons, List.nodup_cons] at h
    by_cases h1 : k1 = k
    · subst h1
      simpa [dictSet] using h
    · simp only [dictSet, h1, if_false, List.map_cons, List.nodup_cons]
      refine ⟨?_, ih h.2⟩
      intro hmem
      rcases mem_keys_dictSet rest k k1 v hmem with h2 | h2
      · exact h.1 h2
      · exact h1 h2

theorem mem_dictSet_self {α : Type} (d : List (String × α)) (k : String) (v : α) :
    (k, v) ∈ dictSet d k v := by
  induction d with
  | nil => simp [dictSet]
  | cons p rest ih =>
    obtain ⟨k1, v1⟩ := p
    by_cases h : k1 = k
    · simp [dictSet, h]
    · simp [dictSet, h, ih]

theorem eq_of_mem_dictSet_nodup {α : Type} (d : List (String × α)) (k : String) (v : α)
    (hnd : (d.map Prod.fst).Nodup) (p : String × α) (hp : p ∈ dictSet d k v)
    (hk : p.1 = k) : p.2 = v := by
  induction d with
  | nil =>
    rcases (by simpa [dictSet] using hp : p = (k, v)) with rfl
    rfl
  | cons q rest ih =>
    obtain ⟨k1, v1⟩ := q
    simp only [List.map_cons, List.nodup_cons] at hnd
    by_cases h1 : k1 = k
    · subst h1
      rcases (by simpa [dictSet] using hp : p = (k1, v) ∨ p ∈ rest) with rfl | h2
      · rfl
      · exact absurd (hk ▸ List.mem_map_of_mem Prod.fst h2) hnd.1
    · rcases (by simpa [dictSet, h1] using hp : p = (k1, v1) ∨ p ∈ dictSet rest k v)
          with rfl | h2
      · exact absurd hk h1
      · exact ih hnd.2 h2

theorem dictFind_of_mem_nodup {α : Type} (d : List (String × α)) (k : String) (v : α)
    (hnd : (d.map Prod.fst).Nodup) (h : (k, v) ∈ d) : dictFind d k = some v := by
  induction d with
  | nil => cases h
  | cons p rest ih =>
    obtain ⟨k1, v1⟩ := p
    simp only [List.map_cons, List.nodup_cons] at hnd
    rcases (by simpa using h : k = k1 ∧ v = v1 ∨ (k, v) ∈ rest) with ⟨rfl, rfl⟩ | h2
    · simp [dictFind]
    · have hk : k1 ≠ k := by
        rintro rfl
        exact hnd.1 (List.mem_map_of_mem Prod.fst h2)
      simp [dictFind, hk, ih hnd.2 h2]

theorem mem_pendingIds_iff (st : BrokerState) (tid : String) :
    tid ∈ pendingIds st ↔ ∃ e, (tid, e) ∈ st.perms ∧ e.decision = none := by
  unfold pendingIds permission_pending
  rw [List.map_map]
  constructor
  · intro h
    rcases List.mem_map.mp h with ⟨p, hp, hped⟩
    obtain ⟨k, e⟩ := p
    rcases List.mem_filter.mp hp with ⟨hmem, hdec⟩
    have hk : k = tid := hped
    subst hk
    exact ⟨e, hmem, by simpa using hdec⟩
  · rintro ⟨e, hmem, hdec⟩
    exact List.mem_map.mpr ⟨(tid, e), List.mem_filter.mpr ⟨hmem, by simp [hdec]⟩, rfl⟩

theorem not_pending_of_decided (st : BrokerState) (tid : String)
    (hnd : (st.perms.map Prod.fst).Nodup) (h : decidedIn tid st = true) :
    tid ∉ pendingIds st := by
  intro hmem
  rcases (mem_pendingIds_iff st tid).mp hmem with ⟨e, hin, hdec⟩
  unfold decidedIn at h
  rw [dictFind_of_mem_nodup st.perms tid e hnd hin] at h
  simp [hdec] at h

theorem result_set_perms_spec (now : Int) (data : PermissionDecision) (st : BrokerState)
    (e : PermEntry) (hf : dictFind st.perms data.task_id = some e) :
    ∃ (e2 : PermEntry) (st1 : BrokerState) (resp : SetResponse),
      permission_result_set now data st = .ok (st1, resp)
      ∧ st1.perms = dictSet st.perms data.task_id e2
      ∧ e2.decision = some data.decision := by
  unfold permission_result_set
  rw [hf]
  dsimp only
  repeat' split
  all_goals exact ⟨_, _, _, rfl, rfl, rfl⟩

theorem result_set_unknown (now : Int) (data : PermissionDecision) (st : BrokerState)
    (hf : dictFind st.perms data.task_id = none) :
    permission_result_set now data st = .error 404 := by
  unfold permission_result_set
  rw [hf]

theorem brokerStep_register_perms (st : BrokerState) (now : Int) (data : PermissionRequest) :
    ∃ ent : PermEntry,
      (brokerStep st (.register now data)).perms = dictSet st.perms data.task_id ent := by
  simp only [brokerStep]
  unfold permission_request
  split
  · exact ⟨_, rfl⟩
  · exact ⟨_, rfl⟩

theorem brokerStep_decide_perms (st : BrokerState) (now : Int) (data : PermissionDecision)
    (e : PermEntry) (hf : dictFind st.perms data.task_id = some e) :
    ∃ e2 : PermEntry,
      (brokerStep st (.decide now data)).perms = dictSet st.perms data.task_id e2
      ∧ e2.decision = some data.decision := by
  obtain ⟨e2, st1, resp, hok, hperms, hdec⟩ := result_set_perms_spec now data st e hf
  refine ⟨e2, ?_, hdec⟩
  simp only [brokerStep, hok]
  exact hperms

theorem brokerStep_decide_unknown (st : BrokerState) (now : Int) (data : PermissionDecision)
    (hf : dictFind st.perms data.task_id = none) :
    brokerStep st (.decide now data) = st := by
  simp only [brokerStep, result_set_unknown now data st hf]

theorem brokerStep_setAllowAll_perms (st : BrokerState) (now m : Int) :
    (brokerStep st (.setAllowAll now m)).perms = st.perms := rfl

theorem brokerStep_nodup (st : BrokerState) (op : BrokerOp)
    (h : (st.perms.map Prod.fst).Nodup) :
    ((brokerStep st op).perms.map Prod.fst).Nodup := by
  cases op with
  | register now data =>
    obtain ⟨ent, hent⟩ := brokerStep_register_perms st now data
    rw [hent]
    exact nodup_keys_dictSet _ _ _ h
  | decide now data =>
    cases hf : dictFind st.perms data.task_id with
    | none => rw [brokerStep_decide_unknown st now data hf]; exact h
    | some e =>
      obtain ⟨e2, he2, -⟩ := brokerStep_decide_perms st now data e hf
      rw [he2]
      exact nodup_keys_dictSet _ _ _ h
  | setAllowAll now m =>
    rw [brokerStep_setAllowAll_perms]
    exact h

theorem brokerStep_preserves_decided (st : BrokerState) (op : BrokerOp) (tid : String)
    (hd : decidedIn tid st = true) (hreg : isRegisterOf tid op = false) :
    decidedIn tid (brokerStep st op) = true := by
  cases op with
  | register now data =>
    have hne : data.task_id ≠ tid := by
      simpa [isRegisterOf] using hreg
    obtain ⟨ent, hent⟩ := brokerStep_register_perms st now data
    unfold decidedIn at *
    rw [hent, dictFind_dictSet_ne _ _ _ _ (Ne.symm hne)]
    exact hd
  | decide now data =>
    cases hf : dictFind st.perms data.task_id with
    | none => rw [brokerStep_decide_unknown st now data hf]; exact hd
    | some e =>
      obtain ⟨e2, he2, he2d⟩ := brokerStep_decide_perms st now data e hf
      by_cases heq : data.task_id = tid
      · subst heq
        unfold decidedIn
        rw [he2, dictFind_dictSet_self]
        simp [he2d]
      · unfold decidedIn at *
        rw [he2, dictFind_dictSet_ne _ _ _ _ (Ne.symm heq)]
        exact hd
  | setAllowAll now m =>
    unfold decidedIn at *
    rw [brokerStep_setAllowAll_perms]
    exact hd

theorem brokerRun_preserves_decided (ops : List BrokerOp) (st : BrokerState) (tid : String)
    (hd : decidedIn tid st = true) (hreg : ∀ op ∈ ops, isRegisterOf tid op = false) :
    decidedIn tid (brokerRun st ops) = true := by
  induction ops generalizing st with
  | nil => exact hd
  | cons op rest ih =>
    exact ih (brokerStep st op)
      (brokerStep_preserves_decided st op tid hd (hreg op (List.mem_cons_self _ _)))
      (fun q hq => hreg q (List.mem_cons_of_mem _ hq))

theorem brokerRun_nodup (ops : List BrokerOp) (st : BrokerState)
    (h : (st.perms.map Prod.fst).Nodup) :
    ((brokerRun st ops).perms.map Prod.fst).Nodup := by
  induction ops generalizing st with
  | nil => exact h
  | cons op rest ih => exact ih (brokerStep st op) (brokerStep_nodup st op h)

/-- C4: when the server-level Allow-All window is active at registration
time, the broker stores the request already decided `"allow"` and
responds `"auto_allowed"` (and such a request is not in the pending
listing); when the window is not active it responds `"queued"`; and the
pending listing contains exactly the task ids holding undecided
entries. -/
theorem server_allow_all_registration :
    (∀ (now : Int) (data : PermissionRequest) (st : BrokerState),
      st.allow_all = true → now < st.allow_all_expires →
      (st.perms.map Prod.fst).Nodup →
      (permission_request now data st).2.status = "auto_allowed"
      ∧ dictFind (permission_request now data st).1.perms data.task_id =
          some ⟨data, some "allow", none, now⟩
      ∧ data.task_id ∉ pendingIds (permission_request now data st).1)
    ∧ (∀ (now : Int) (data : PermissionRequest) (st : BrokerState),
      ¬(st.allow_all = true ∧ now < st.allow_all_expires) →
      (permission_request now data st).2.status = "queued")
    ∧ (∀ (st : BrokerState) (tid : String),
      tid ∈ pendingIds st ↔ ∃ e, (tid, e) ∈ st.perms ∧ e.decision = none) := by
  refine ⟨?_, ?_, mem_pendingIds_iff⟩
  · intro now data st h1 h2 hnd
    have hreq : permission_request now data st =
        ({ st with perms := dictSet st.perms data.task_id ⟨data, some "allow", none, now⟩ },
         ⟨"auto_allowed", data.task_id⟩) := by
      unfold permission_request
      rw [if_pos ⟨h1, h2⟩]
    rw [hreq]
    refine ⟨rfl, dictFind_dictSet_self _ _ _, ?_⟩
    intro hmem
    rcases (mem_pendingIds_iff _ data.task_id).mp hmem with ⟨e, hin, hdec⟩
    have he : e = ⟨data, some "allow", none, now⟩ :=
      eq_of_mem_dictSet_nodup st.perms data.task_id
        ⟨data, some "allow", none, now⟩ hnd (data.task_id, e) hin rfl
    rw [he] at hdec
    cases hdec
  · intro now data st h
    unfold permission_request
    rw [if_neg h]

/-- C4 witness: a registration at time 1 under a window expiring at 100
is auto-allowed, stored decided `"allow"`, and absent from pending; the
same registration under an expired window is queued; and the pending
characterization instantiated on the resulting state. -/
theorem server_allow_all_registration_witness :
    (permission_request 1 ⟨"abc123", "click", "d", some 5, some 6, none, 0⟩
        ⟨[], true, 100⟩).2.status = "auto_allowed"
    ∧ dictFind (permission_request 1 ⟨"abc123", "click", "d", some 5, some 6, none, 0⟩
        ⟨[], true, 100⟩).1.perms "abc123" =
        some ⟨⟨"abc123", "click", "d", some 5, some 6, none, 0⟩, some "allow", none, 1⟩
    ∧ "abc123" ∉ pendingIds (permission_request 1
        ⟨"abc123", "click", "d", some 5, some 6, none, 0⟩ ⟨[], true, 100⟩).1
    ∧ (permission_request 1 ⟨"abc123", "click", "d", some 5, some 6, none, 0⟩
        ⟨[], true, 1⟩).2.status = "queued"
    ∧ ("abc123" ∈ pendingIds ⟨[], false, 0⟩ ↔
        ∃ e, ("abc123", e) ∈ ([] : List (String × PermEntry)) ∧ e.decision = none) :=
  have h1 := server_allow_all_registration.1 1 ⟨"abc123", "click", "d", some 5, some 6, none, 0⟩
    ⟨[], true, 100⟩ rfl (by decide) (by decide)
  ⟨h1.1, h1.2.1, h1.2.2,
   server_allow_all_registration.2.1 1 ⟨"abc123", "click", "d", some 5, some 6, none, 0⟩
     ⟨[], true, 1⟩ (by decide),
   server_allow_all_registration.2.2 ⟨[], false, 0⟩ "abc123"⟩

/-- C5 counterexample: the lifecycle claim fails under unrestricted
operation sequences. (i) Registering a fresh task id while the server
Allow-All window is active does not place it in the pending listing
(it is stored already decided). (ii) A decided request re-surfaces as
pending when its task id is registered again: after
register `"abc123"` → decide `"allow"` → register `"abc123"` the id is
decided in the intermediate state yet listed as pending afterwards. -/
theorem broker_lifecycle_counterexample :
    (pendingIds (brokerRun ⟨[], false, 0⟩
      [.setAllowAll 0 30, .register 1 ⟨"abc123", "click", "d", some 5, some 6, none, 0⟩]) = [])
    ∧ (decidedIn "abc123" (brokerRun ⟨[], false, 0⟩
      [.register 0 ⟨"abc123", "click", "d", some 5, some 6, none, 0⟩,
       .decide 1 ⟨"abc123", "allow", none⟩]) = true)
    ∧ (pendingIds (brokerStep (brokerRun ⟨[], false, 0⟩
      [.register 0 ⟨"abc123", "click", "d", some 5, some 6, none, 0⟩,
       .decide 1 ⟨"abc123", "allow", none⟩])
      (.register 2 ⟨"abc123", "click", "d", some 5, some 6, none, 0⟩)) = ["abc123"]) := by
  refine ⟨?_, ?_, ?_⟩ <;> decide

/-- C5 (amended): broker request lifecycle under sequences that do not
re-register an existing task id. (i) Registering a fresh task id while
the server Allow-All window is inactive places it in the pending
listing. (ii) Submitting a decision `d` for a registered task id makes
`d` the value returned by subsequent polls and removes the id from the
pending listing. (iii) A decided entry stays decided across any single
broker operation that is not a registration of that id, and (iv) stays
decided — and out of the pending listing — across any such operation
sequence (re-registering a decided task id, by contrast, resets it to
pending, as the counterexample shows). -/
theorem broker_lifecycle :
    (∀ (now : Int) (data : PermissionRequest) (st : BrokerState),
      dictFind st.perms data.task_id = none →
      ¬(st.allow_all = true ∧ now < st.allow_all_expires) →
      data.task_id ∈ pendingIds (permission_request now data st).1)
    ∧ (∀ (now : Int) (data : PermissionDecision) (st : BrokerState) (e : PermEntry),
      (st.perms.map Prod.fst).Nodup →
      dictFind st.perms data.task_id = some e →
      (permission_result_get data.task_id (brokerStep st (.decide now data))).decision =
        data.decision
      ∧ data.task_id ∉ pendingIds (brokerStep st (.decide now data)))
    ∧ (∀ (st : BrokerState) (op : BrokerOp) (tid : String),
      decidedIn tid st = true → isRegisterOf tid op = false →
      decidedIn tid (brokerStep st op) = true)
    ∧ (∀ (st : BrokerState) (ops : List BrokerOp) (tid : String),
      (st.perms.map Prod.fst).Nodup →
      decidedIn tid st = true →
      (∀ op ∈ ops, isRegisterOf tid op = false) →
      decidedIn tid (brokerRun st ops) = true
      ∧ tid ∉ pendingIds (brokerRun st ops)) := by
  refine ⟨?_, ?_, brokerStep_preserves_decided, ?_⟩
  · intro now data st hfresh hwin
    have hreq : permission_request now data st =
        ({ st with perms := dictSet st.perms data.task_id ⟨data, none, none, now⟩ },
         ⟨"queued", data.task_id⟩) := by
      unfold permission_request
      rw [if_neg hwin]
    rw [hreq]
    exact (mem_pendingIds_iff _ _).mpr ⟨⟨data, none, none, now⟩, mem_dictSet_self _ _ _, rfl⟩
  · intro now data st e hnd hf
    obtain ⟨e2, he2, he2d⟩ := brokerStep_decide_perms st now data e hf
    constructor
    · unfold permission_result_get
      rw [he2, dictFind_dictSet_self]
      simp [he2d]
    · apply not_pending_of_decided _ _ ((he2 ▸ nodup_keys_dictSet _ _ _ hnd))
      unfold decidedIn
      rw [he2, dictFind_dictSet_self]
      simp [he2d]
  · intro st ops tid hnd hd hreg
    exact ⟨brokerRun_preserves_decided ops st tid hd hreg,
      not_pending_of_decided _ _ (brokerRun_nodup ops st hnd)
        (brokerRun_preserves_decided ops st tid hd hreg)⟩

/-- C5 witness: the amended lifecycle on `task_id "abc123"` from the
empty broker state: fresh registration at time 0 is pending; deciding
`"allow"` at time 1 makes polls return `"allow"` and clears it from
pending; decidedness survives a `setAllowAll` step and the operation
sequence `[setAllowAll, decide skip, register of another id]`, after
which `"abc123"` is still not pending. -/
theorem broker_lifecycle_witness :
    ("abc123" ∈ pendingIds (permission_request 0
      ⟨"abc123", "click", "d", some 5, some 6, none, 0⟩ ⟨[], false, 0⟩).1)
    ∧ ((permission_result_get "abc123" (brokerStep
        (permission_request 0 ⟨"abc123", "click", "d", some 5, some 6, none, 0⟩
          ⟨[], false, 0⟩).1
        (.decide 1 ⟨"abc123", "allow", none⟩))).decision = "allow"
      ∧ "abc123" ∉ pendingIds (brokerStep
        (permission_request 0 ⟨"abc123", "click", "d", some 5, some 6, none, 0⟩
          ⟨[], false, 0⟩).1
        (.decide 1 ⟨"abc123", "allow", none⟩)))
    ∧ (decidedIn "abc123" (brokerStep ⟨[("abc123", ⟨⟨"abc123", "click", "d", some 5, some 6,
        none, 0⟩, some "allow", none, 0⟩)], false, 0⟩ (.setAllowAll 2 30)) = true)
    ∧ (decidedIn "abc123" (brokerRun ⟨[("abc123", ⟨⟨"abc123", "click", "d", some 5, some 6,
        none, 0⟩, some "allow", none, 0⟩)], false, 0⟩
        [.setAllowAll 2 30, .decide 3 ⟨"abc123", "skip", none⟩,
         .register 4 ⟨"other", "type", "d2", none, none, some "hi", 0⟩]) = true
      ∧ "abc123" ∉ pendingIds (brokerRun ⟨[("abc123", ⟨⟨"abc123", "click", "d", some 5,
        some 6, none, 0⟩, some "allow", none, 0⟩)], false, 0⟩
        [.setAllowAll 2 30, .decide 3 ⟨"abc123", "skip", none⟩,
         .register 4 ⟨"other", "type", "d2", none, none, some "hi", 0⟩])) :=
  ⟨broker_lifecycle.1 0 ⟨"abc123", "click", "d", some 5, some 6, none, 0⟩ ⟨[], false, 0⟩
      (by decide) (by decide),
   broker_lifecycle.2.1 1 ⟨"abc123", "allow", none⟩
      (permission_request 0 ⟨"abc123", "click", "d", some 5, some 6, none, 0⟩
        ⟨[], false, 0⟩).1 ⟨⟨"abc123", "click", "d", some 5, some 6, none, 0⟩, none, none, 0⟩
      (by decide) (by decide),
   broker_lifecycle.2.2.1 ⟨[("abc123", ⟨⟨"abc123", "click", "d", some 5, some 6, none, 0⟩,
      some "allow", none, 0⟩)], false, 0⟩ (.setAllowAll 2 30) "abc123" (by decide) (by decide),
   broker_lifecycle.2.2.2 ⟨[("abc123", ⟨⟨"abc123", "click", "d", some 5, some 6, none, 0⟩,
      some "allow", none, 0⟩)], false, 0⟩
      [.setAllowAll 2 30, .decide 3 ⟨"abc123", "skip", none⟩,
       .register 4 ⟨"other", "type", "d2", none, none, some "hi", 0⟩] "abc123"
      (by decide) (by decide) (by decide)⟩

/-- C6: a task id that is not in the action-permission map polls as the
explicit `"not_found"`, which differs from `"pending"` and from every
real decision value; and submitting a decision for an unknown id yields
a 404 response at the HTTP boundary (FastAPI turns the raised
`HTTPException` into a response; the state is untouched and no exception
crosses the boundary, `permission_result_set_http` being total). -/
theorem unknown_task_id_handling :
    ∀ (st : BrokerState) (tid : String) (now : Int) (d : String) (ed : Option String),
      dictFind st.perms tid = none →
      permission_result_get tid st = ⟨"not_found", none⟩
      ∧ ("not_found" ∉ (["pending", "allow", "skip", "stop", "edit", "allow_all"] : List String))
      ∧ permission_result_set_http now ⟨tid, d, ed⟩ st = (404, st) := by
  intro st tid now d ed hf
  refine ⟨?_, by decide, ?_⟩
  · unfold permission_result_get
    rw [hf]
  · unfold permission_result_set_http
    rw [result_set_unknown now ⟨tid, d, ed⟩ st hf]

/-- C6 witness: on a broker state holding only `"abc123"`, the id
`"nonexistent"` polls as `"not_found"` and its decision submission is
answered 404 with the state unchanged. -/
theorem unknown_task_id_handling_witness :
    permission_result_get "nonexistent" ⟨[("abc123", ⟨⟨"abc123", "click", "d", some 5, some 6,
        none, 0⟩, none, none, 0⟩)], false, 0⟩ = ⟨"not_found", none⟩
    ∧ ("not_found" ∉ (["pending", "allow", "skip", "stop", "edit", "allow_all"] : List String))
    ∧ permission_result_set_http 1 ⟨"nonexistent", "allow", none⟩
        ⟨[("abc123", ⟨⟨"abc123", "click", "d", some 5, some 6, none, 0⟩, none, none, 0⟩)],
         false, 0⟩ =
      (404, ⟨[("abc123", ⟨⟨"abc123", "click", "d", some 5, some 6, none, 0⟩, none, none, 0⟩)],
         false, 0⟩) :=
  unknown_task_id_handling ⟨[("abc123", ⟨⟨"abc123", "click", "d", some 5, some 6, none, 0⟩,
    none, none, 0⟩)], false, 0⟩ "nonexistent" 1 "allow" none (by decide)

/-! ### Executor lemmas -/

theorem runDev_error_wf (env : List DevOutcome) (evs : List InputEvent) (ev : InputEvent)
    (p : ExecOutcome × List InputEvent) (h : runDev env evs ev = .error p) :
    outcomeWF p = true := by
  unfold runDev at h
  rcases env with - | ⟨o, rest⟩
  · cases h
  · cases o with
    | ok ret => cases h
    | failSafe =>
      injection h with h1
      rw [← h1]
      rfl
    | err m =>
      injection h with h1
      rw [← h1]
      rfl

theorem runCapture_error_wf (env : List DevOutcome) (evs : List InputEvent) (ev : InputEvent)
    (p : ExecOutcome × List InputEvent) (h : runCapture env evs ev = .error p) :
    outcomeWF p = true := by
  unfold runCapture at h
  rcases env with - | ⟨o, rest⟩
  · cases h
  · cases o with
    | ok ret => cases h
    | failSafe =>
      injection h with h1
      rw [← h1]
      rfl
    | err m =>
      injection h with h1
      rw [← h1]
      rfl

theorem execBody_wf (env : List DevOutcome) (action : PyDict) :
    outcomeWF (execBody env action) = true := by
  unfold execBody
  dsimp only
  repeat' split
  all_goals first
    | rfl
    | (exact runDev_error_wf _ _ _ _ (by assumption))
    | (exact runCapture_error_wf _ _ _ _ (by assumption))
    | (rename_i heq
       split at heq
       · exact runDev_error_wf _ _ _ _ heq
       · cases heq)

/-- C8: validation failures of the executor are resolved locally: a
`"click"` proposal with a missing `x` or `y`, and a `"type"` proposal
with a missing `text`, return the fixed `success: False` validation
dictionary and produce zero input events, for every device environment.
(`execute_action` has no broker channel in its signature at all — the
registration/polling transport lives only in `PermissionGate.request` —
so nothing is sent to the broker on any executor path.) -/
theorem executor_validation_local :
    (∀ (env : List DevOutcome) (action : PyDict),
      pyGetD action "action" (.vStr "ask") = .vStr "click" →
      (pyGet action "x" = PyVal.vNone ∨ pyGet action "y" = PyVal.vNone) →
      execute_action env action =
        ([("success", .vBool false),
          ("error", .vStr "Click action requires x and y coordinates")], []))
    ∧ (∀ (env : List DevOutcome) (action : PyDict),
      pyGetD action "action" (.vStr "ask") = .vStr "type" →
      pyGet action "text" = PyVal.vNone →
      execute_action env action =
        ([("success", .vBool false), ("error", .vStr "Type action requires text")], [])) := by
  constructor
  · intro env action h hxy
    unfold execute_action execBody
    rcases hxy with hx | hy
    · simp [h, hx]
    · simp [h, hy]
  · intro env action h htext
    unfold execute_action execBody
    simp [h, htext]

/-- C8 witness: a coordinate-less click and a text-less type, each run
against a hostile device environment, return their validation failures
with zero input events. -/
theorem executor_validation_local_witness :
    execute_action [.failSafe] [("action", .vStr "click"), ("y", .vInt 3)] =
      ([("success", .vBool false),
        ("error", .vStr "Click action requires x and y coordinates")], [])
    ∧ execute_action [.err "boom"] [("action", .vStr "type"), ("text", .vNone)] =
      ([("success", .vBool false), ("error", .vStr "Type action requires text")], []) :=
  ⟨executor_validation_local.1 [.failSafe] [("action", .vStr "click"), ("y", .vInt 3)]
      (by decide) (by decide),
   executor_validation_local.2 [.err "boom"] [("action", .vStr "type"), ("text", .vNone)]
      (by decide) (by decide)⟩

/-- C9: when the device layer raises `FailSafeException` (pointer at the
reserved corner), the executor aborts the in-flight action and returns
the fixed fail-safe failure: (i) for any click/type/scroll proposal that
reaches its first device call; (ii) also mid-action — a click whose
`moveTo` succeeded but whose `click` call fail-safes returns the
fail-safe failure with only the `moveTo` event performed; and (iii) the
fail-safe result is distinguishable from the result alone: its error
string differs from both validation messages, and an ordinary exception
result equals it only if the exception message is literally the
fail-safe sentinel (which no device error is). -/
theorem executor_failsafe_distinguished :
    (∀ (action : PyDict) (rest : List DevOutcome),
      ((pyGetD action "action" (.vStr "ask") = .vStr "click"
        ∧ pyGet action "x" ≠ PyVal.vNone ∧ pyGet action "y" ≠ PyVal.vNone)
      ∨ (pyGetD action "action" (.vStr "ask") = .vStr "type"
        ∧ pyGet action "text" ≠ PyVal.vNone)
      ∨ (pyGetD action "action" (.vStr "ask") = .vStr "scroll"
        ∧ (pyGetD action "direction" (.vStr "down") = .vStr "up"
           ∨ ∃ i : Int, pyGetD action "amount" (.vInt 3) = .vInt i))) →
      execute_action (.failSafe :: rest) action =
        ([("success", .vBool false), ("error", .vStr failSafeMsg)], []))
    ∧ (∀ (x y : Int) (rest : List DevOutcome),
      execute_action (.ok "" :: .failSafe :: rest)
        [("action", .vStr "click"), ("x", .vInt x), ("y", .vInt y)] =
        ([("success", .vBool false), ("error", .vStr failSafeMsg)],
         [.moveTo (.vInt x) (.vInt y)]))
    ∧ (failSafeMsg ≠ "Click action requires x and y coordinates"
      ∧ failSafeMsg ≠ "Type action requires text"
      ∧ ∀ m : String, m ≠ failSafeMsg →
        ([("success", PyVal.vBool false), ("error", PyVal.vStr m)] : List (String × PyVal)) ≠
          [("success", PyVal.vBool false), ("error", PyVal.vStr failSafeMsg)]) := by
  refine ⟨?_, ?_, by decide, by decide, ?_⟩
  · intro action rest h
    rcases h with ⟨ht, hx, hy⟩ | ⟨ht, htext⟩ | ⟨ht, hdir⟩
    · unfold execute_action execBody
      simp [ht, hx, hy, runDev, devCall]
    · by_cases hxy : pyGet action "x" ≠ PyVal.vNone ∧ pyGet action "y" ≠ PyVal.vNone
      · unfold execute_action execBody
        simp [ht, htext, hxy, runDev, devCall]
      · unfold execute_action execBody
        simp [ht, htext, hxy, runDev, devCall]
    · rcases hdir with hup | ⟨i, hi⟩
      · unfold execute_action execBody
        simp [ht, hup, runDev, devCall]
      · by_cases hup : pyGetD action "direction" (.vStr "down") = .vStr "up"
        · unfold execute_action execBody
          simp [ht, hup, runDev, devCall]
        · unfold execute_action execBody
          simp [ht, hup, hi, pyNeg, runDev, devCall]
  · intro x y rest
    unfold execute_action execBody
    simp [pyGet, pyGetD, dictFind, runDev, devCall]
  · intro m hm heq
    simp only [List.cons.injEq, Prod.mk.injEq, PyVal.vStr.injEq] at heq
    exact hm heq.2.1.2

/-- C9 witness: the abort and distinguishability facts at concrete
inputs — a fail-safe on the first call of a click at (1, 2), a fail-safe
on the second call, and the ordinary device error `"boom"`. -/
theorem executor_failsafe_distinguished_witness :
    execute_action [.failSafe] [("action", .vStr "click"), ("x", .vInt 1), ("y", .vInt 2)] =
      ([("success", .vBool false), ("error", .vStr failSafeMsg)], [])
    ∧ execute_action [.ok "", .failSafe]
        [("action", .vStr "click"), ("x", .vInt 7), ("y", .vInt 8)] =
      ([("success", .vBool false), ("error", .vStr failSafeMsg)],
       [.moveTo (.vInt 7) (.vInt 8)])
    ∧ ([("success", PyVal.vBool false), ("error", PyVal.vStr "boom")] :
        List (String × PyVal)) ≠
      [("success", PyVal.vBool false), ("error", PyVal.vStr failSafeMsg)] :=
  ⟨executor_failsafe_distinguished.1
      [("action", .vStr "click"), ("x", .vInt 1), ("y", .vInt 2)] []
      (Or.inl ⟨by decide, by decide, by decide⟩),
   executor_failsafe_distinguished.2.1 7 8 [],
   executor_failsafe_distinguished.2.2.2.2 "boom" (by decide)⟩

/-- C10: `execute_action` is total at its public boundary: it is a
function of the (arbitrary) input dictionary and device environment —
exceptions of the device layer are values of the environment, consumed
by the two `except` handlers — and for every input, including unknown
action types, its result dictionary carries a boolean `"success"` key,
accompanied by a string `"error"` key whenever `"success"` is `False`. -/
theorem executor_total_boundary :
    ∀ (env : List DevOutcome) (action : PyDict),
      resultWellFormed (execute_action env action).1 = true := by
  intro env action
  have hwf := execBody_wf env action
  unfold execute_action
  rcases hb : execBody env action with ⟨o, evs⟩
  rw [hb] at hwf
  cases o with
  | ret r => simpa [outcomeWF] using hwf
  | raised m => rfl
  | fsAbort => rfl

end Beelal
